import Mathlib

/-!
Shallow embedding of `src/mne/beamformer/_dics.py` (DICS beamformer).

Matrices are modelled as total functions `ℕ → ℕ → ℚ` together with explicit
dimensions; all sums run over `Finset.range`.  The cross-spectral densities in
the concrete scenarios of the spec are real-valued, so the complex entries of
the source are modelled over `ℚ`, on which `conj` is the identity and
`np.real_if_close` is the identity as well.  The external SciPy routines
`scipy.linalg.pinv` and `scipy.linalg.eigh` (third-party collaborators, not
part of this repository) are passed in as oracle parameters in `DicsParams`;
theorems about concrete runs characterise the oracle's value on the concrete
matrices actually inverted.  The final square root (line 161 of the source)
lives in `ℝ`.
-/

namespace Dics

/-- Matrices as total rational-valued functions; dimensions are carried
separately by each operation. -/
abbrev Mat : Type := ℕ → ℕ → ℚ

/-- Matrix product `np.dot(A, B)` with inner dimension `inner`. -/
def dot (inner : ℕ) (A B : Mat) : Mat :=
  fun i j => ∑ k ∈ Finset.range inner, A i k * B k j

/-- Matrix transpose `A.T`. -/
def transpose (A : Mat) : Mat := fun i j => A j i

/-- External numerical routines used by `_apply_dics`: `scipy.linalg.pinv`
(matrix, dimension, cutoff `cond`) and `scipy.linalg.eigh` (returning
eigenvalues and the matrix whose columns are eigenvectors).  These are
third-party library calls, so they enter the embedding as parameters. -/
structure DicsParams where
  pinv : Mat → ℕ → ℚ → Mat
  eigh : Mat → (ℕ → ℚ) × Mat

/-- Inputs of `_apply_dics` after the external channel-selection and
projector-construction collaborators have run (lines 82-104 of the source):
`sol` is `forward['sol']['data']` restricted to the picked channels, `proj` is
the output of `make_projector`, and `srcSel` is the output of
`label_src_vertno_sel` when a label was given (`none` when `label is None`).
`isFreeOri` is `forward['source_ori'] == FIFF.FIFFV_MNE_FREE_ORI`,
`surfOri` is `forward['surf_ori']`, `srcType` is `forward['src'][0]['type']`.
`noiseCsd` and `dataCsd` are the two cross-spectral density matrices. -/
structure ApplyDicsInput where
  nChan : ℕ
  nColsAll : ℕ
  sol : Mat
  isFreeOri : Bool
  surfOri : Bool
  srcType : String
  proj : Mat
  srcSel : Option (List ℕ)
  noiseCsd : Mat
  dataCsd : Mat

/-- Lines 94-96: `src_sel = 3 * src_sel; np.c_[src_sel, src_sel + 1,
src_sel + 2].ravel()` — each selected vertex index expands to its three
contiguous orientation-column indices. -/
def expandSrcSel (sel : List ℕ) : List ℕ :=
  sel.flatMap fun s => [3 * s, 3 * s + 1, 3 * s + 2]

/-- Column-index list used to slice `G` when a label is given
(lines 91-98). -/
def srcSelExpanded (isFree : Bool) (sel : List ℕ) : List ℕ :=
  if isFree then expandSrcSel sel else sel

/-- Number of columns of the restricted gain matrix `G` (its `shape[1]`). -/
def nColsOf (inp : ApplyDicsInput) : ℕ :=
  match inp.srcSel with
  | none => inp.nColsAll
  | some sel => (srcSelExpanded inp.isFreeOri sel).length

/-- Lines 90-101: `G = forward['sol']['data'][:, src_sel]` when a label is
given, else the full gain matrix. -/
def Gsel (inp : ApplyDicsInput) : Mat :=
  match inp.srcSel with
  | none => inp.sol
  | some sel =>
      fun i j =>
        if j < (srcSelExpanded inp.isFreeOri sel).length
        then inp.sol i ((srcSelExpanded inp.isFreeOri sel).getD j 0)
        else 0

/-- Line 105: `G = np.dot(proj, G)` (SSP application). -/
def Gmat (inp : ApplyDicsInput) : Mat := dot inp.nChan inp.proj (Gsel inp)

/-- Line 114: `n_orient = 3 if is_free_ori else 1`. -/
def nOrientOf (inp : ApplyDicsInput) : ℕ := if inp.isFreeOri then 3 else 1

/-- Line 115: `n_sources = G.shape[1] // n_orient`. -/
def nSourcesOf (inp : ApplyDicsInput) : ℕ := nColsOf inp / nOrientOf inp

/-- Model of `np.argmax` on a length-3 vector: first index attaining the
maximum. -/
def argmax3 (v : ℕ → ℚ) : ℕ :=
  if v 0 < v 1 then (if v 1 < v 2 then 2 else 1) else (if v 0 < v 2 then 2 else 0)

/-- Model of `np.argmin` on a length-3 vector: first index attaining the
minimum. -/
def argmin3 (v : ℕ → ℚ) : ℕ :=
  if v 1 < v 0 then (if v 2 < v 1 then 2 else 1) else (if v 2 < v 0 then 2 else 0)

/-- Lines 132-134: `for i in range(3): if i != eig_vals.argmax() and
i != eig_vals.argmin(): idx_middle = i` (the last qualifying index wins; at
least one index always qualifies). -/
def idxMiddle (v : ℕ → ℚ) : ℕ :=
  (List.range 3).foldl (fun acc i => if i ≠ argmax3 v ∧ i ≠ argmin3 v then i else acc) 0

/-- Loop body of lines 117-153 of `_apply_dics`.  The state is the triple
`(W, source_power, is_free_ori)`: `W` is mutated in place through the block
views `Wk` (lines 140, 146, 149), `source_power[k]` is written at line 152,
and `is_free_ori` is flipped to `False` by the `max-power` branch
(line 142). -/
def dicsLoopBody (p : DicsParams) (G Cm : Mat) (nChan nOrient : ℕ)
    (pickOri : Option String) (st : Mat × (ℕ → ℚ) × Bool) (k : ℕ) :
    Mat × (ℕ → ℚ) × Bool :=
  let W := st.1
  let power := st.2.1
  let isFree := st.2.2
  let Wk : Mat := fun i j => W (nOrient * k + i) j
  let Gk : Mat := fun i j => G i (nOrient * k + j)
  let Ck : Mat := dot nChan Wk Gk
  let step :=
    if pickOri = some "max-power" then
      let ev := (p.eigh Ck).1
      let evec := (p.eigh Ck).2
      let maxOri : ℕ → ℚ := fun i => evec i (idxMiddle ev)
      let row : ℕ → ℚ := fun j => ∑ r ∈ Finset.range 3, maxOri r * Wk r j
      let ck : ℚ :=
        ∑ i ∈ Finset.range 3, maxOri i * (∑ j ∈ Finset.range 3, Ck i j * maxOri j)
      ((fun _i j => row j : Mat), (fun _i _j => ck : Mat), false)
    else (Wk, Ck, isFree)
  let Wk1 := step.1
  let Ck1 := step.2.1
  let isFree1 := step.2.2
  let WkFinal : Mat :=
    if isFree1 then dot 3 (p.pinv Ck1 3 (1 / 10)) Wk1
    else fun i j => Wk1 i j / Ck1 0 0
  let Wout : Mat := fun i j =>
    if nOrient * k ≤ i ∧ i < nOrient * k + nOrient then WkFinal (i - nOrient * k) j
    else W i j
  let pk : ℚ :=
    ∑ i ∈ Finset.range nOrient, ∑ a ∈ Finset.range nChan,
      WkFinal i a * (∑ b ∈ Finset.range nChan, Cm a b * WkFinal i b)
  (Wout, fun j => if j = k then pk else power j, isFree1)

/-- Lines 110 and 113: `Cm_inv = linalg.pinv(Cm, reg)` (the additive loading
of line 109 is commented out in the source) and `W = np.dot(G.T, Cm_inv)`. -/
def dicsW0 (p : DicsParams) (inp : ApplyDicsInput) (reg : ℚ) : Mat :=
  dot inp.nChan (transpose (Gmat inp)) (p.pinv inp.dataCsd inp.nChan reg)

/-- Lines 116-153: the per-source loop, folded over `range(n_sources)`.
Inside `_apply_dics` the loop always runs with `pick_ori = None`, since
line 65 overrides the argument before the loop. -/
def dicsLoopResult (p : DicsParams) (inp : ApplyDicsInput) (reg : ℚ) :
    Mat × (ℕ → ℚ) × Bool :=
  (List.range (nSourcesOf inp)).foldl
    (dicsLoopBody p (Gmat inp) inp.dataCsd inp.nChan (nOrientOf inp) none)
    (dicsW0 p inp reg, fun _ => (0 : ℚ), inp.isFreeOri)

/-- Pre-normalization `source_power` vector as it stands after the loop. -/
def dicsPowerPre (p : DicsParams) (inp : ApplyDicsInput) (reg : ℚ) : ℕ → ℚ :=
  (dicsLoopResult p inp reg).2.1

/-- The matrix `W` as it stands after the loop (mutated in place by the
per-source block updates). -/
def dicsWFinal (p : DicsParams) (inp : ApplyDicsInput) (reg : ℚ) : Mat :=
  (dicsLoopResult p inp reg).1

/-- Lines 155-161 without the final square root: `noise_norm =
np.sum((W * W.conj()), axis=1)`, and if `is_free_ori` the row norms are summed
in groups of three rows per source location.  Conjugation is the identity on
`ℚ`, as is `np.real_if_close` on real values. -/
def noiseNormSqOf (nChan : ℕ) (isFree : Bool) (W : Mat) : ℕ → ℚ :=
  if isFree then
    fun k =>
      (∑ j ∈ Finset.range nChan, W (3 * k) j * W (3 * k) j) +
      (∑ j ∈ Finset.range nChan, W (3 * k + 1) j * W (3 * k + 1) j) +
      (∑ j ∈ Finset.range nChan, W (3 * k + 2) j * W (3 * k + 2) j)
  else
    fun k => ∑ j ∈ Finset.range nChan, W k j * W k j

/-- Squared noise normalization of the run: `noise_norm` before the square
root of line 161, computed (as in the source) from the loop-final `W` and the
loop-final `is_free_ori` flag. -/
def dicsNoiseNormSq (p : DicsParams) (inp : ApplyDicsInput) (reg : ℚ) : ℕ → ℚ :=
  noiseNormSqOf inp.nChan (dicsLoopResult p inp reg).2.2 (dicsLoopResult p inp reg).1

/-- Lines 161-164: `noise_norm = np.sqrt(noise_norm); source_power /=
noise_norm`.  The square root lives in `ℝ`. -/
noncomputable def dicsSourcePower (p : DicsParams) (inp : ApplyDicsInput)
    (reg : ℚ) : ℕ → ℝ :=
  fun k => ((dicsPowerPre p inp reg k : ℚ) : ℝ) / Real.sqrt ((dicsNoiseNormSq p inp reg k : ℚ) : ℝ)

/-- Embedding of `_apply_dics` (lines 23-166).  Line 65 re-binds `pick_ori`
to `None` before the three orientation-validation checks of lines 69-80, so
the argument `pick_ori` is shadowed exactly as in the source.  The returned
value is the final `source_power` vector (one entry per source). -/
noncomputable def _apply_dics (p : DicsParams) (inp : ApplyDicsInput) (reg : ℚ)
    (pick_ori : Option String) : Except String (List ℝ) :=
  let pick_ori : Option String := none
  let is_free_ori := inp.isFreeOri
  if (pick_ori = some "normal" ∨ pick_ori = some "max-power") ∧ is_free_ori = false then
    Except.error "Normal or max-power orientation can only be picked when a forward operator with free orientation is used."
  else if pick_ori = some "normal" ∧ inp.surfOri = false then
    Except.error "Normal orientation can only be picked when a forward operator oriented in surface coordinates is used."
  else if pick_ori = some "normal" ∧ ¬ inp.srcType = "surf" then
    Except.error "Normal orientation can only be picked when a forward operator with a surface-based source space is used."
  else
    Except.ok ((List.range (nSourcesOf inp)).map (dicsSourcePower p inp reg))

/-- Embedding of `dics_epochs` (lines 170-228).  The per-trial sensor data
`epochs.get_data()[:, picks, :]` is modelled as a list of matrices, one per
trial.  Line 222 calls `_apply_dics` with the literal `reg=0.1`, ignoring the
`reg` argument of `dics_epochs`; lines 225-226 materialize the result as a
list unless `return_generator` is set. -/
noncomputable def dics_epochs (p : DicsParams) (epochsData : List Mat)
    (inp : ApplyDicsInput) (reg : ℚ) (pick_ori : Option String)
    (return_generator : Bool) : Except String (List ℝ) :=
  let stcs := _apply_dics p inp (1 / 10) pick_ori
  if return_generator = false then Except.map (fun l => l.map fun s => s) stcs
  else stcs

/-! ### Definitions taken from the spec's words

These are used on the right-hand side of refinement statements, to be compared
with the embedding above. -/

/-- From the spec (§4.2): FilterBuilder returns `Cm_inv = pinv(Cm, reg)` and
`W = Gᵗ · Cm_inv`. -/
def filterBuilderSpec (pinv : Mat → ℕ → ℚ → Mat) (nChan : ℕ) (G Cm : Mat)
    (reg : ℚ) : Mat × Mat :=
  (pinv Cm nChan reg, dot nChan (transpose G) (pinv Cm nChan reg))

/-- From the spec (§4.3): free-orientation pooled reduction
`Wk ← pinv(Ck, rank_threshold=0.1) · Wk`. -/
def reduceFreeSpec (pinv : Mat → ℕ → ℚ → Mat) (Ck Wk : Mat) : Mat :=
  dot 3 (pinv Ck 3 (1 / 10)) Wk

/-- From the spec (§4.3): fixed-orientation scalar reduction `Wk ← Wk / Ck`
with `Ck` a 1×1 matrix. -/
def reduceFixedSpec (Ck Wk : Mat) : Mat := fun i j => Wk i j / Ck 0 0

/-- Diagonal matrix of dimension `n` with diagonal `d`. -/
def diagMat (d : ℕ → ℚ) (n : ℕ) : Mat := fun i j => if i = j ∧ i < n then d i else 0

/-- Largest singular value of the diagonal matrix with diagonal `d`:
the maximum of the `|d i|`, `i < n`. -/
def svMax (d : ℕ → ℚ) (n : ℕ) : ℚ := ((List.range n).map fun i => |d i|).foldl max 0

/-- Modelled from the spec: the behaviour of the external
`scipy.linalg.pinv(A, cond)` on a diagonal matrix with diagonal `d` (absent
from `src/`, being a third-party routine).  Per the spec (§4.2, Glossary), the
singular values of such a matrix are the `|d i|`; singular values not
exceeding `cond × max_singular_value` are treated as zero (those directions
are dropped), the others are inverted, and there is no additive diagonal
loading. -/
def pinvDiagModel (d : ℕ → ℚ) (n : ℕ) (cond : ℚ) : Mat :=
  fun i j => if i = j ∧ i < n ∧ cond * svMax d n < |d i| then (d i)⁻¹ else 0

/-! ### Concrete inputs used by the spec's test scenarios -/

/-- Identity matrix on 2 channels (also the SSP projector of a projection-free
measurement). -/
def id2 : Mat := fun i j => if i = j ∧ i < 2 then 1 else 0

/-- One half times the identity on 2 channels: the pseudo-inverse of
`[[2,0],[0,2]]` at cutoff 0. -/
def halfI : Mat := fun i j => if i = j ∧ i < 2 then 1 / 2 else 0

/-- The data CSD `[[2,0],[0,2]]` of the spec's concrete scenario. -/
def diag2 : Mat := fun i j => if i = j ∧ i < 2 then 2 else 0

/-- The gain matrix `G = [[1.0],[1.0]]` (2 channels, 1 fixed-orientation
source) of the spec's concrete scenario. -/
def G11 : Mat := fun i j => if i < 2 ∧ j = 0 then 1 else 0

/-- The spatial filter `W = [0.5, 0.5]` expected in the concrete scenario. -/
def WC1 : Mat := fun i j => if i = 0 ∧ j < 2 then 1 / 2 else 0

/-- The spatial filter `W = [1, 1]` arising in the second concrete scenario
(data CSD equal to the identity). -/
def Wones : Mat := fun i j => if i = 0 ∧ j < 2 then 1 else 0

/-- The all-zero matrix (used as a placeholder noise CSD, which the source
never reads). -/
def zeroM : Mat := fun _ _ => 0

/-- Oracle whose `pinv` returns `0.5·I`: the honest value of
`scipy.linalg.pinv([[2,0],[0,2]], 0)`, used for concrete runs on the
scenario's data CSD. -/
def pC1 : DicsParams := ⟨fun _ _ _ => halfI, fun _ => (fun _ => 0, fun _ _ => 0)⟩

/-- Oracle whose `pinv` returns the 2×2 identity: the honest value of
`scipy.linalg.pinv(I, 0)`. -/
def pId : DicsParams := ⟨fun _ _ _ => id2, fun _ => (fun _ => 0, fun _ _ => 0)⟩

/-- The spec's concrete scenario: 2 channels, 1 fixed-orientation source,
`G = [[1],[1]]`, data CSD `[[2,0],[0,2]]`, no label, no projections. -/
def C1inp : ApplyDicsInput :=
  ⟨2, 1, G11, false, true, "surf", id2, none, zeroM, diag2⟩

/-- Same geometry as `C1inp` but with the identity as data CSD; here the
fixed-orientation reduction rescales `W` (`Ck = 2`), separating the reduced
from the unreduced filter. -/
def C2inp : ApplyDicsInput :=
  ⟨2, 1, G11, false, true, "surf", id2, none, zeroM, id2⟩

/-- A run whose label intersects zero vertices: `label_src_vertno_sel`
returned the empty selection. -/
def emptyLabelInp : ApplyDicsInput :=
  ⟨2, 1, G11, false, true, "surf", id2, some [], zeroM, diag2⟩

/-- Eigenvalues `(5, 1, 3)` of the principal-orientation scenario. -/
def evC8 : ℕ → ℚ := fun i => if i = 0 then 5 else if i = 1 then 1 else 3

/-- Identity 3×3 matrix, used as the eigenvector matrix of the
principal-orientation scenario (column `i` is the eigenvector of
`evC8 i`). -/
def id3 : Mat := fun i j => if i = j ∧ i < 3 then 1 else 0

/-- Oracle for the principal-orientation scenario: `eigh` reports eigenvalues
`(5, 1, 3)` with the standard basis as eigenvectors. -/
def pC8 : DicsParams := ⟨fun _ _ _ => id3, fun _ => (evC8, id3)⟩

/-- One-channel filter block with rows `1, 2, 4` for the principal-orientation
scenario. -/
def WC8 : Mat := fun i _ => if i = 0 then 1 else if i = 1 then 2 else 4

/-- One-channel gain block `[1, 1, 1]` for the principal-orientation
scenario. -/
def GC8 : Mat := fun _ j => if j < 3 then 1 else 0

/-- One-channel data CSD for the principal-orientation scenario. -/
def CmC8 : Mat := fun i j => if i = 0 ∧ j = 0 then 1 else 0

/-- Diagonal `(4, 1)` used to exercise the relative singular-value cutoff of
the pseudo-inverse model. -/
def d4 : ℕ → ℚ := fun i => if i = 0 then 4 else 1

/-- The `Ck = Wk · Gk` coupling matrix of line 120 at source location `k`,
expressed through the initial `W`: the loop mutates only the rows of the
block being processed, and the row blocks are pairwise disjoint, so the `Wk`
read at iteration `k` is the corresponding block of the initial `W`. -/
def dicsCk (p : DicsParams) (inp : ApplyDicsInput) (reg : ℚ) (k : ℕ) : Mat :=
  dot inp.nChan (fun i j => dicsW0 p inp reg (nOrientOf inp * k + i) j)
    (fun i j => Gmat inp i (nOrientOf inp * k + j))

/-! ### Helper lemmas -/

/-- With `pick_ori = None` (the only value the loop is ever run with inside
`_apply_dics`, because of the line-65 override) the loop body reduces to the
free/fixed dispatch of lines 144-149 followed by the power computation. -/
theorem dicsLoopBody_none (p : DicsParams) (G Cm : Mat) (nChan nOrient : ℕ)
    (st : Mat × (ℕ → ℚ) × Bool) (k : ℕ) :
    dicsLoopBody p G Cm nChan nOrient none st k =
      (let W := st.1
       let Wk : Mat := fun i j => W (nOrient * k + i) j
       let Gk : Mat := fun i j => G i (nOrient * k + j)
       let Ck : Mat := dot nChan Wk Gk
       let WkFinal : Mat :=
         if st.2.2 then dot 3 (p.pinv Ck 3 (1 / 10)) Wk
         else fun i j => Wk i j / Ck 0 0
       let Wout : Mat := fun i j =>
         if nOrient * k ≤ i ∧ i < nOrient * k + nOrient then WkFinal (i - nOrient * k) j
         else W i j
       let pk : ℚ := ∑ i ∈ Finset.range nOrient, ∑ a ∈ Finset.range nChan,
         WkFinal i a * (∑ b ∈ Finset.range nChan, Cm a b * WkFinal i b)
       (Wout, fun j => if j = k then pk else st.2.1 j, st.2.2)) := rfl

/-- The pick-ori override of line 65 makes the three validation branches of
lines 69-80 unreachable, so `_apply_dics` always succeeds with the final
power vector. -/
theorem apply_dics_eq_ok (p : DicsParams) (inp : ApplyDicsInput) (reg : ℚ)
    (po : Option String) :
    _apply_dics p inp reg po
      = Except.ok ((List.range (nSourcesOf inp)).map (dicsSourcePower p inp reg)) := rfl

/-- Restriction and projection leave the scenario gain matrix unchanged
(`proj` is the identity and no label is given). -/
theorem Gmat_C1inp : Gmat C1inp = G11 := by
  funext i j
  simp only [Gmat, dot, Gsel, C1inp, id2, G11, Finset.sum_range_succ, Finset.sum_range_zero]
  rcases j with _ | j <;> rcases i with _ | _ | i <;> simp [Nat.succ_lt_succ_iff]

/-- Same computation for the second scenario input. -/
theorem Gmat_C2inp : Gmat C2inp = G11 := by
  funext i j
  simp only [Gmat, dot, Gsel, C2inp, id2, G11, Finset.sum_range_succ, Finset.sum_range_zero]
  rcases j with _ | j <;> rcases i with _ | _ | i <;> simp [Nat.succ_lt_succ_iff]

/-- In the scenario there is exactly one source. -/
theorem nSources_C1inp : nSourcesOf C1inp = 1 := by
  simp [nSourcesOf, nColsOf, nOrientOf, C1inp]

/-- In the second scenario there is exactly one source. -/
theorem nSources_C2inp : nSourcesOf C2inp = 1 := by
  simp [nSourcesOf, nColsOf, nOrientOf, C2inp]

/-- For any oracle that inverts the scenario data CSD correctly, the spatial
filter of line 113 is `W = [0.5, 0.5]`. -/
theorem dicsW0_C1 (p : DicsParams) (hp : p.pinv diag2 2 0 = halfI) :
    dicsW0 p C1inp 0 = WC1 := by
  funext i j
  rw [dicsW0, Gmat_C1inp]
  simp only [C1inp]
  rw [hp]
  simp only [dot, transpose, G11, halfI, WC1, Finset.sum_range_succ, Finset.sum_range_zero]
  rcases j with _ | _ | j <;> rcases i with _ | i <;> simp [Nat.succ_lt_succ_iff]

/-- The single loop iteration of the scenario, isolated. -/
theorem dicsLoop_C1 (p : DicsParams) (hp : p.pinv diag2 2 0 = halfI) :
    dicsLoopResult p C1inp 0
      = dicsLoopBody p (Gmat C1inp) diag2 2 1 none (WC1, fun _ => 0, false) 0 := by
  rw [dicsLoopResult, dicsW0_C1 p hp, nSources_C1inp]
  rfl

/-- Pre-normalization power of the scenario: `2·(1/2)² + 2·(1/2)² = 1`. -/
theorem dicsPowerPre_C1 (p : DicsParams) (hp : p.pinv diag2 2 0 = halfI) :
    dicsPowerPre p C1inp 0 0 = 1 := by
  rw [dicsPowerPre, dicsLoop_C1 p hp, dicsLoopBody_none]
  simp only []
  rw [Gmat_C1inp]
  norm_num [dot, WC1, G11, diag2, Finset.sum_range_succ]

/-- Squared noise normalization of the scenario: `(1/2)² + (1/2)² = 1/2`. -/
theorem dicsNoiseNormSq_C1 (p : DicsParams) (hp : p.pinv diag2 2 0 = halfI) :
    dicsNoiseNormSq p C1inp 0 0 = 1 / 2 := by
  rw [dicsNoiseNormSq, dicsLoop_C1 p hp, dicsLoopBody_none]
  simp only []
  rw [Gmat_C1inp]
  norm_num [noiseNormSqOf, dot, WC1, G11, diag2, C1inp, Finset.sum_range_succ]

/-- Filter-gain coupling of the scenario: `Ck = W·G = 1/2 + 1/2 = 1`. -/
theorem dicsCk_C1 (p : DicsParams) (hp : p.pinv diag2 2 0 = halfI) :
    dicsCk p C1inp 0 0 0 0 = 1 := by
  rw [dicsCk, dicsW0_C1 p hp, Gmat_C1inp]
  norm_num [dot, WC1, G11, C1inp, nOrientOf, Finset.sum_range_succ]

/-- On the identity data CSD the spatial filter of line 113 is `W = [1, 1]`. -/
theorem dicsW0_C2 (p : DicsParams) (hp : p.pinv id2 2 0 = id2) :
    dicsW0 p C2inp 0 = Wones := by
  funext i j
  rw [dicsW0, Gmat_C2inp]
  simp only [C2inp]
  rw [hp]
  simp only [dot, transpose, G11, id2, Wones, Finset.sum_range_succ, Finset.sum_range_zero]
  rcases j with _ | _ | j <;> rcases i with _ | i <;> simp [Nat.succ_lt_succ_iff]

/-- The single loop iteration of the second scenario, isolated. -/
theorem dicsLoop_C2 (p : DicsParams) (hp : p.pinv id2 2 0 = id2) :
    dicsLoopResult p C2inp 0
      = dicsLoopBody p (Gmat C2inp) id2 2 1 none (Wones, fun _ => 0, false) 0 := by
  rw [dicsLoopResult, dicsW0_C2 p hp, nSources_C2inp]
  rfl

/-- Claim C1, counterexample: on the spec's concrete 2-channel, 1-source,
fixed-orientation scenario (`G = [[1],[1]]`, data CSD `[[2,0],[0,2]]`,
`reg = 0`, oracle returning the true pseudo-inverse `0.5·I`), the code
computes `Ck = W·G = 1` (the claim says `0.5`), pre-normalization
`power[0] = 1` (the claim says `2.0`), and a final normalized power smaller
than `2` (so not approximately `2.828`). -/
theorem C1_counterexample :
    dicsCk pC1 C1inp 0 0 0 0 = 1 ∧ (1 : ℚ) ≠ 1 / 2
    ∧ dicsPowerPre pC1 C1inp 0 0 = 1 ∧ (1 : ℚ) ≠ 2
    ∧ dicsSourcePower pC1 C1inp 0 0 < 2 := by
  refine ⟨dicsCk_C1 pC1 rfl, by norm_num, dicsPowerPre_C1 pC1 rfl, by norm_num, ?_⟩
  simp only [dicsSourcePower]
  rw [dicsPowerPre_C1 pC1 rfl, dicsNoiseNormSq_C1 pC1 rfl]
  rw [show (((1 : ℚ) / 2 : ℚ) : ℝ) = 2⁻¹ by norm_num, Real.sqrt_inv,
    show (((1 : ℚ)) : ℝ) = 1 by norm_num, one_div, inv_inv]
  nlinarith [Real.sq_sqrt (show (0:ℝ) ≤ 2 by norm_num), Real.sqrt_nonneg 2]

/-- Claim C1 (amended): for the concrete 2-channel, 1-source,
fixed-orientation input with `G = [[1],[1]]`, `DataCSD = [[2,0],[0,2]]` and
`reg = 0`, one invocation of the core computation yields `Cm_inv = 0.5·I`,
`W = [0.5, 0.5]`, `Ck = 1`, pre-normalization `power[0] = 1`,
`noise_norm[0]² = 1/2` (so `noise_norm[0] = sqrt(0.5)`), and final normalized
`power[0] = sqrt 2 ≈ 1.414`.  The hypothesis pins the external
`scipy.linalg.pinv` oracle to the true pseudo-inverse of the scenario's data
CSD at cutoff 0. -/
theorem C1_theorem (p : DicsParams) (hp : p.pinv diag2 2 0 = halfI) :
    p.pinv C1inp.dataCsd C1inp.nChan 0 = halfI
    ∧ dicsW0 p C1inp 0 = WC1
    ∧ dicsCk p C1inp 0 0 0 0 = 1
    ∧ dicsPowerPre p C1inp 0 0 = 1
    ∧ dicsNoiseNormSq p C1inp 0 0 = 1 / 2
    ∧ dicsSourcePower p C1inp 0 0 = Real.sqrt 2 := by
  refine ⟨hp, dicsW0_C1 p hp, dicsCk_C1 p hp, dicsPowerPre_C1 p hp,
    dicsNoiseNormSq_C1 p hp, ?_⟩
  simp only [dicsSourcePower]
  rw [dicsPowerPre_C1 p hp, dicsNoiseNormSq_C1 p hp]
  rw [show (((1 : ℚ) / 2 : ℚ) : ℝ) = 2⁻¹ by norm_num, Real.sqrt_inv,
    show (((1 : ℚ)) : ℝ) = 1 by norm_num, one_div, inv_inv]

/-- Claim C1, witness: the concrete oracle `pC1` satisfies the hypothesis and
the final normalized power evaluates to `sqrt 2`. -/
theorem C1_witness :
    pC1.pinv diag2 2 0 = halfI ∧ dicsSourcePower pC1 C1inp 0 0 = Real.sqrt 2 :=
  ⟨rfl, (C1_theorem pC1 rfl).2.2.2.2.2⟩

/-- Claim C2, counterexample: with `G = [[1],[1]]`, data CSD the identity and
`reg = 0`, the unreduced filter is `W = [1, 1]` (squared row norm `2`), but
the fixed-orientation reduction rescales the block in place to `[1/2, 1/2]`
(`Ck = 2`), and the noise normalization of lines 155-161 computes `1/2`, not
the claimed value `2` obtained from the unreduced `W`. -/
theorem C2_counterexample :
    dicsNoiseNormSq pId C2inp 0 0 = 1 / 2
    ∧ noiseNormSqOf 2 false (dicsW0 pId C2inp 0) 0 = 2
    ∧ ((1 : ℚ) / 2) ≠ 2 := by
  refine ⟨?_, ?_, by norm_num⟩
  · rw [dicsNoiseNormSq, dicsLoop_C2 pId rfl, dicsLoopBody_none]
    simp only []
    rw [Gmat_C2inp]
    norm_num [noiseNormSqOf, dot, Wones, G11, id2, C2inp, Finset.sum_range_succ]
  · rw [dicsW0_C2 pId rfl]
    norm_num [noiseNormSqOf, Wones, Finset.sum_range_succ]

/-- Claim C2 (amended): the noise normalization factors are computed from the
spatial filter `W` as it stands after the in-place per-source orientation
reduction (the reduced blocks), not from the unreduced `W = Gᵗ·Cm_inv`; the
per-row squared norms are `∑_j W[i,j]·conj(W[i,j])` (conjugation is the
identity over the rationals), summed in groups of 3 rows per location in the
free-orientation pooled case, square-rooted, and `power[k]` is divided by
`noise_norm[k]` elementwise. -/
theorem C2_theorem (p : DicsParams) (inp : ApplyDicsInput) (reg : ℚ) :
    dicsNoiseNormSq p inp reg
      = noiseNormSqOf inp.nChan (dicsLoopResult p inp reg).2.2 (dicsLoopResult p inp reg).1
    ∧ (∀ W : Mat, ∀ k, noiseNormSqOf inp.nChan false W k
        = ∑ j ∈ Finset.range inp.nChan, W k j * W k j)
    ∧ (∀ W : Mat, ∀ k, noiseNormSqOf inp.nChan true W k
        = (∑ j ∈ Finset.range inp.nChan, W (3 * k) j * W (3 * k) j)
          + (∑ j ∈ Finset.range inp.nChan, W (3 * k + 1) j * W (3 * k + 1) j)
          + (∑ j ∈ Finset.range inp.nChan, W (3 * k + 2) j * W (3 * k + 2) j))
    ∧ (∀ k, dicsSourcePower p inp reg k
        = ((dicsPowerPre p inp reg k : ℚ) : ℝ)
          / Real.sqrt ((dicsNoiseNormSq p inp reg k : ℚ) : ℝ)) :=
  ⟨rfl, fun _ _ => rfl, fun _ _ => rfl, fun _ => rfl⟩

/-- Claim C3, counterexample: a `max-power` orientation request together with
a fixed-orientation forward model (an incompatible configuration per the
claim) does not raise: the computation succeeds and returns the power
vector. -/
theorem C3_counterexample :
    _apply_dics pC1 C1inp 0 (some "max-power")
      = Except.ok ((List.range 1).map (dicsSourcePower pC1 C1inp 0))
    ∧ C1inp.isFreeOri = false := by
  refine ⟨?_, rfl⟩
  rw [apply_dics_eq_ok, nSources_C1inp]

/-- Claim C3 (amended): no orientation-configuration error is ever raised.
Line 65 overrides `pick_ori` to `None` before the validation checks of lines
69-80, so every invocation — whatever orientation policy was requested and
whatever the forward model's properties — proceeds to the matrix computation
and succeeds. -/
theorem C3_theorem (p : DicsParams) (inp : ApplyDicsInput) (reg : ℚ)
    (po : Option String) :
    _apply_dics p inp reg po = _apply_dics p inp reg none
    ∧ _apply_dics p inp reg po
      = Except.ok ((List.range (nSourcesOf inp)).map (dicsSourcePower p inp reg)) :=
  ⟨rfl, apply_dics_eq_ok p inp reg po⟩

/-- Claim C5: the noise CSD argument is accepted but never numerically
consumed — two invocations that agree on every input except the noise CSD
return identical source power outputs. -/
theorem C5_theorem (p : DicsParams) (inp : ApplyDicsInput) (n1 n2 : Mat)
    (reg : ℚ) (po : Option String) :
    _apply_dics p { inp with noiseCsd := n1 } reg po
      = _apply_dics p { inp with noiseCsd := n2 } reg po := rfl

/-- Claim C7: evaluation at the failing input. `dics_epochs` driven over
three trials returns exactly what it returns over one (different) trial —
the per-trial data is never consumed — and its payload is a single vector
with one entry per source (here 1), not one estimate per trial (3); this
contradicts the function's own docstring, which promises one source estimate
per epoch. -/
theorem C7_theorem :
    dics_epochs pC1 [zeroM, id2, diag2] C1inp (1 / 100) none false
      = dics_epochs pC1 [G11] C1inp (1 / 100) none false
    ∧ Except.map List.length (dics_epochs pC1 [zeroM, id2, diag2] C1inp (1 / 100) none false)
      = Except.ok 1
    ∧ (1 : ℕ) ≠ 3 := by
  refine ⟨rfl, ?_, by norm_num⟩
  rw [show dics_epochs pC1 [zeroM, id2, diag2] C1inp (1 / 100) none false
      = Except.ok (((List.range (nSourcesOf C1inp)).map
          (dicsSourcePower pC1 C1inp (1 / 10))).map fun s => s) from rfl]
  rw [nSources_C1inp]
  rfl

/-- Claim C9, counterexample: when the label selection is empty (the
label-to-vertex lookup returned zero vertices), the computation does not
raise; it silently returns an empty source estimate. -/
theorem C9_counterexample :
    emptyLabelInp.srcSel = some []
    ∧ _apply_dics pC1 emptyLabelInp 0 none = Except.ok [] := ⟨rfl, rfl⟩

/-- Claim C9 (amended): for every invocation whose label selects zero
vertices, the computation silently returns an empty source power vector (no
error is signalled). -/
theorem C9_theorem (p : DicsParams) (inp : ApplyDicsInput) (reg : ℚ)
    (po : Option String) (h : inp.srcSel = some []) :
    _apply_dics p inp reg po = Except.ok [] := by
  rw [apply_dics_eq_ok]
  have h0 : nSourcesOf inp = 0 := by
    cases hf : inp.isFreeOri <;>
      simp [nSourcesOf, nColsOf, h, srcSelExpanded, expandSrcSel, nOrientOf, hf]
  rw [h0]
  rfl

/-- Claim C9, witness: the amended theorem applied to the concrete
empty-label input. -/
theorem C9_witness :
    emptyLabelInp.srcSel = some []
    ∧ _apply_dics pId emptyLabelInp 0 none = Except.ok [] :=
  ⟨rfl, C9_theorem pId emptyLabelInp 0 none rfl⟩

/-- Claim C10: `dics_epochs` ignores its `reg` argument (documented default
`0.01`) and always calls the core computation with the hardcoded constant
`reg = 0.1` (line 222), so two calls differing only in `reg` return identical
results. -/
theorem C10_theorem (p : DicsParams) (d : List Mat) (inp : ApplyDicsInput)
    (reg reg' : ℚ) (po : Option String) (rg : Bool) :
    dics_epochs p d inp reg po rg = dics_epochs p d inp reg' po rg
    ∧ dics_epochs p d inp reg po true = _apply_dics p inp (1 / 10) po :=
  ⟨rfl, rfl⟩

/-- Claim C4: the filter-construction step of lines 110-113 computes
`W = Gᵗ · pinv(Cm, reg)` with `reg` passed straight to the pseudo-inverse of
the unmodified data CSD (no additive diagonal loading — line 109 is commented
out), as a pure function of `(G, Cm, reg)`; and in the spec model of the
external `scipy.linalg.pinv` on diagonal matrices, `reg` acts as a relative
singular-value cutoff: entries whose singular value does not exceed
`reg × max_singular_value` are zeroed, all off-diagonal entries are zero, and
at cutoff 0 an invertible diagonal matrix is inverted exactly (which an
additive Tikhonov loading would not do). -/
theorem C4_theorem :
    (∀ (p : DicsParams) (inp : ApplyDicsInput) (reg : ℚ),
      dicsW0 p inp reg
        = (filterBuilderSpec p.pinv inp.nChan (Gmat inp) inp.dataCsd reg).2)
    ∧ (∀ (p : DicsParams) (inp inp' : ApplyDicsInput) (reg : ℚ),
      Gmat inp = Gmat inp' → inp.dataCsd = inp'.dataCsd → inp.nChan = inp'.nChan →
      dicsW0 p inp reg = dicsW0 p inp' reg)
    ∧ (∀ (d : ℕ → ℚ) (n : ℕ) (cond : ℚ) (i j : ℕ),
      ¬ cond * svMax d n < |d i| → pinvDiagModel d n cond i j = 0)
    ∧ (∀ (d : ℕ → ℚ) (n : ℕ) (cond : ℚ) (i j : ℕ), i ≠ j →
      pinvDiagModel d n cond i j = 0)
    ∧ (∀ (d : ℕ → ℚ) (n : ℕ), (∀ i, i < n → d i ≠ 0) →
      dot n (diagMat d n) (pinvDiagModel d n 0) = diagMat (fun _ => 1) n) := by
  refine ⟨fun p inp reg => rfl, ?_, ?_, ?_, ?_⟩
  · intro p inp inp' reg hG hC hn
    simp only [dicsW0]
    rw [hG, hC, hn]
  · intro d n cond i j h
    simp [pinvDiagModel, h]
  · intro d n cond i j h
    simp [pinvDiagModel, h]
  · intro d n hd
    funext i j
    simp only [dot, diagMat, pinvDiagModel]
    rcases Nat.lt_or_ge i n with hi | hi
    · rw [Finset.sum_eq_single i (fun b _ hb => by simp [Ne.symm hb])
        (fun hni => absurd (Finset.mem_range.mpr hi) hni)]
      have hdi : d i ≠ 0 := hd i hi
      have habs : 0 * svMax d n < |d i| := by
        rw [zero_mul]
        exact abs_pos.mpr hdi
      by_cases hij : i = j
      · subst hij
        simp [hi, habs, hdi, mul_inv_cancel₀ hdi]
      · simp [hi, hij, habs]
    · have hni : ¬ i < n := Nat.not_lt.mpr hi
      simp [hni]

/-- Claim C4, witness: the cutoff zeroes the small direction of the diagonal
`(4, 1)` at `cond = 1/2` (cutoff `2 ≥ 1`), off-diagonal entries vanish, the
cutoff-0 pseudo-inverse of `(4, 1)` is its exact inverse, and the pipeline
equality instantiated on the concrete scenario. -/
theorem C4_witness :
    pinvDiagModel d4 2 (1 / 2) 1 1 = 0
    ∧ pinvDiagModel d4 2 (1 / 2) 0 1 = 0
    ∧ dot 2 (diagMat d4 2) (pinvDiagModel d4 2 0) = diagMat (fun _ => 1) 2
    ∧ dicsW0 pC1 C1inp 0
      = (filterBuilderSpec pC1.pinv C1inp.nChan (Gmat C1inp) C1inp.dataCsd 0).2 :=
  ⟨C4_theorem.2.2.1 d4 2 (1 / 2) 1 1 (by
      norm_num [svMax, d4, show List.range 2 = [0, 1] from rfl, max_def, abs_of_nonneg]),
   C4_theorem.2.2.2.1 d4 2 (1 / 2) 0 1 (by norm_num),
   C4_theorem.2.2.2.2 d4 2 (by
      intro i hi
      interval_cases i <;> norm_num [d4]),
   C4_theorem.1 pC1 C1inp 0⟩

/-- Claim C6: the orientation reduction dispatches on the orientation mode —
in the free-orientation pooled case the block row `i < 3` of the updated `W`
is `(pinv(Ck, 0.1) · Wk) i`, the full 3-row block being retained, and in the
fixed-orientation case the single block row is `Wk / Ck` with `Ck` the 1×1
coupling `Wk·Gk`.  The right-hand sides are the spec's own formulas
(`reduceFreeSpec`, `reduceFixedSpec`). -/
theorem C6_theorem (p : DicsParams) (G Cm : Mat) (nChan k : ℕ) (W : Mat)
    (pow : ℕ → ℚ) (i j : ℕ) :
    (i < 3 → (dicsLoopBody p G Cm nChan 3 none (W, pow, true) k).1 (3 * k + i) j
      = reduceFreeSpec p.pinv
          (dot nChan (fun a b => W (3 * k + a) b) (fun a b => G a (3 * k + b)))
          (fun a b => W (3 * k + a) b) i j)
    ∧ ((dicsLoopBody p G Cm nChan 1 none (W, pow, false) k).1 (1 * k + 0) j
      = reduceFixedSpec
          (dot nChan (fun a b => W (1 * k + a) b) (fun a b => G a (1 * k + b)))
          (fun a b => W (1 * k + a) b) 0 j) := by
  constructor
  · intro hi
    rw [dicsLoopBody_none]
    have h2 : 3 * k + i < 3 * k + 3 := by omega
    simp [reduceFreeSpec, Nat.le_add_right, h2]
  · rw [dicsLoopBody_none]
    simp [reduceFixedSpec]

/-- Claim C6, witness: both dispatch branches instantiated on a concrete
2-channel block. -/
theorem C6_witness :
    ((dicsLoopBody pC1 G11 id2 2 3 none (id2, fun _ => 0, true) 0).1 (3 * 0 + 0) 0
      = reduceFreeSpec pC1.pinv
          (dot 2 (fun a b => id2 (3 * 0 + a) b) (fun a b => G11 a (3 * 0 + b)))
          (fun a b => id2 (3 * 0 + a) b) 0 0)
    ∧ ((dicsLoopBody pC1 G11 id2 2 1 none (id2, fun _ => 0, false) 0).1 (1 * 0 + 0) 0
      = reduceFixedSpec
          (dot 2 (fun a b => id2 (1 * 0 + a) b) (fun a b => G11 a (1 * 0 + b)))
          (fun a b => id2 (1 * 0 + a) b) 0 0) :=
  ⟨(C6_theorem pC1 G11 id2 2 0 id2 (fun _ => 0) 0 0).1 (by norm_num),
   (C6_theorem pC1 G11 id2 2 0 id2 (fun _ => 0) 0 0).2⟩

/-- Claim C8: with eigenvalues `(5, 1, 3)`, the principal-orientation
(`max-power`) reduction of lines 125-142 selects index 2, whose eigenvalue is
`3` — the middle one, never the maximum `5` (index `argmax`) nor the minimum
`1` (index `argmin`) — and, in a concrete one-channel run with the standard
basis as eigenvectors, projects `Wk` onto that eigenvector (all rows of the
updated block carry the projected row `Wk[2]/Ck[2,2] = 1`) and flips the
free-orientation flag so the location is treated as fixed-orientation
thereafter. -/
theorem C8_theorem :
    idxMiddle evC8 = 2 ∧ evC8 (idxMiddle evC8) = 3
    ∧ idxMiddle evC8 ≠ argmax3 evC8 ∧ idxMiddle evC8 ≠ argmin3 evC8
    ∧ evC8 (argmax3 evC8) = 5 ∧ evC8 (argmin3 evC8) = 1
    ∧ (dicsLoopBody pC8 GC8 CmC8 1 3 (some "max-power") (WC8, fun _ => 0, true) 0).2.2
      = false
    ∧ (dicsLoopBody pC8 GC8 CmC8 1 3 (some "max-power") (WC8, fun _ => 0, true) 0).1 0 0
      = 1
    ∧ (dicsLoopBody pC8 GC8 CmC8 1 3 (some "max-power") (WC8, fun _ => 0, true) 0).1 1 0
      = 1
    ∧ (dicsLoopBody pC8 GC8 CmC8 1 3 (some "max-power") (WC8, fun _ => 0, true) 0).1 2 0
      = 1 := by
  have hmax : argmax3 evC8 = 0 := by norm_num [argmax3, evC8]
  have hmin : argmin3 evC8 = 1 := by norm_num [argmin3, evC8]
  have hmid : idxMiddle evC8 = 2 := by
    norm_num [idxMiddle, show List.range 3 = [0, 1, 2] from rfl, hmax, hmin]
  refine ⟨hmid, by rw [hmid]; norm_num [evC8], by rw [hmid, hmax]; norm_num,
    by rw [hmid, hmin]; norm_num, by rw [hmax]; norm_num [evC8],
    by rw [hmin]; norm_num [evC8], rfl, ?_, ?_, ?_⟩ <;>
    norm_num [dicsLoopBody, pC8, evC8, id3, WC8, GC8, CmC8, hmid, dot,
      Finset.sum_range_succ]

end Dics
